import Mathlib

/-!
# Verification of the design-tool scene-graph core

Shallow embedding of the core data structures of the vector design tool
(Transform, AABB, QuadTree, SceneNode, Scene, LayerManager, renderer
selection), translated from the JavaScript sources, together with proofs
and refutations of the specification claims about them.

JavaScript numbers are modelled as exact rationals (`ℚ`); the claims under
scrutiny do not depend on floating-point rounding.
-/

namespace DesignTool

/-! ## Transform (src/js/core/Transform.js)

A 2D affine transform stored as six scalars `a b c d e f`.  The class
mutates in place; here every operation returns a new value.  The memoized
`_decomposed` cache and the pooling flag are omitted: no claim reads them
and they do not influence `multiply` / `invert` / `transformPoint`. -/

structure Transform where
  a : ℚ
  b : ℚ
  c : ℚ
  d : ℚ
  e : ℚ
  f : ℚ
deriving DecidableEq, Repr

/-- `new Transform()` / `identity()`: the matrix components start at the
identity (the constructor's `x, y, rotation, scaleX, scaleY` arguments are
stored but never folded into the matrix). -/
def Transform.identityT : Transform := ⟨1, 0, 0, 1, 0, 0⟩

/-- `translate(x, y)`: adds to the `e`/`f` components. -/
def Transform.translate (t : Transform) (x y : ℚ) : Transform :=
  { t with e := t.e + x, f := t.f + y }

/-- `multiply(transform)`: in-place matrix product, row-vector convention;
`this` is applied first, then `transform`. -/
def Transform.multiply (t u : Transform) : Transform :=
  { a := t.a * u.a + t.b * u.c
    b := t.a * u.b + t.b * u.d
    c := t.c * u.a + t.d * u.c
    d := t.c * u.b + t.d * u.d
    e := t.e * u.a + t.f * u.c + u.e
    f := t.e * u.b + t.f * u.d + u.f }

/-- The determinant `a * d - b * c` computed inside `invert()`. -/
def Transform.det (t : Transform) : ℚ := t.a * t.d - t.b * t.c

/-- `invert()`: returns the identity when the determinant is zero,
otherwise the adjugate divided by the determinant, with the translation
components `(c*f - d*e)/det` and `(b*e - a*f)/det`. -/
def Transform.invert (t : Transform) : Transform :=
  if t.det = 0 then Transform.identityT
  else
    { a := t.d / t.det
      b := -t.b / t.det
      c := -t.c / t.det
      d := t.a / t.det
      e := (t.c * t.f - t.d * t.e) / t.det
      f := (t.b * t.e - t.a * t.f) / t.det }

/-- A 2D point `{x, y}`. -/
structure Point where
  x : ℚ
  y : ℚ
deriving DecidableEq, Repr

/-- `transformPoint(point)`:
`{x: x*a + y*c + e, y: x*b + y*d + f}`. -/
def Transform.transformPoint (t : Transform) (p : Point) : Point :=
  ⟨p.x * t.a + p.y * t.c + t.e, p.x * t.b + p.y * t.d + t.f⟩

/-! ## AABB (src/js/core/AABB.js)

Stored as `(x, y, width, height)`.  The class exposes no `minX`/`maxX`
getters; where the QuadTree reads `bounds.minX` etc. we use the intended
box edges `x`, `x + width`, `y`, `y + height`. -/

structure AABB where
  x : ℚ
  y : ℚ
  width : ℚ
  height : ℚ
deriving DecidableEq, Repr

def AABB.minX (s : AABB) : ℚ := s.x
def AABB.minY (s : AABB) : ℚ := s.y
def AABB.maxX (s : AABB) : ℚ := s.x + s.width
def AABB.maxY (s : AABB) : ℚ := s.y + s.height

/-- `intersectsAABB(aabb)`: four strict comparisons
`this._x < aabb._x + aabb._width && this._x + this._width > aabb._x && ...`. -/
def AABB.intersectsAABB (s t : AABB) : Bool :=
  decide (s.x < t.x + t.width) && decide (s.x + s.width > t.x) &&
  decide (s.y < t.y + t.height) && decide (s.y + s.height > t.y)

/-! ## Renderer selection (RenderingEngine, src/unnamed/part_000)

`getOptimalRenderer()` reads `metrics.fps` and
`scene.getComplexityScore()` and picks one of the three strategies. -/

inductive Strategy where
  | webgl
  | hybrid
  | canvas
deriving DecidableEq, Repr

/-- `getOptimalRenderer()`:
`complexity > 1000 && state.isWebGLEnabled && metrics.fps > 30` selects
webgl; else `complexity > 500 && state.isWebGLEnabled` selects hybrid;
else canvas. -/
def getOptimalRenderer (complexity : ℚ) (isWebGLEnabled : Bool) (fps : ℚ) : Strategy :=
  if complexity > 1000 ∧ isWebGLEnabled = true ∧ fps > 30 then Strategy.webgl
  else if complexity > 500 ∧ isWebGLEnabled = true then Strategy.hybrid
  else Strategy.canvas

/-! ## SceneNode (src/unnamed/part_001)

The constructor is `constructor(id = crypto.randomUUID())`: the caller may
pass an id, otherwise a fresh UUID is drawn.  `clone(deep)` executes
`const clone = new SceneNode(this.id)` — it passes the *same* id to the
new node's constructor — then copies the property bag and the transform,
clones effects/constraints/layout, and recursively clones children when
`deep`.  Fields not copied by `clone` (name, world transform, dirty flags)
keep their constructor defaults.  Effects are represented by their type
tags; `effect.clone()` yields an effect of the same type. -/

structure NodeProps where
  visible : Bool
  locked : Bool
  opacity : ℚ
  blendMode : String
deriving Repr

inductive SceneNode where
  | mk (id : String) (name : String) (props : NodeProps) (transform : Transform)
      (worldTransform : Transform) (isTransformDirty : Bool)
      (effects : List String) (children : List SceneNode)

def SceneNode.id : SceneNode → String
  | .mk i _ _ _ _ _ _ _ => i

def SceneNode.children : SceneNode → List SceneNode
  | .mk _ _ _ _ _ _ _ cs => cs

/-- `new SceneNode(id)`: name starts empty, transforms start at the
identity, the node starts transform-dirty, no effects, no children. -/
def SceneNode.new (id : String) : SceneNode :=
  .mk id "" ⟨true, false, 1, "normal"⟩ Transform.identityT Transform.identityT true [] []

mutual

/-- `clone(deep)`: a fresh node constructed with `this.id`, with the
property bag and transform copied, effects cloned, and (when `deep`)
every child cloned and re-attached via `addChild`. -/
def SceneNode.clone (deep : Bool) : SceneNode → SceneNode
  | .mk i _ props tf _ _ effects cs =>
    .mk i "" props tf Transform.identityT true effects
      (if deep then SceneNode.cloneChildren cs else [])

def SceneNode.cloneChildren : List SceneNode → List SceneNode
  | [] => []
  | c :: cs => SceneNode.clone true c :: SceneNode.cloneChildren cs

end

/-! ## SceneNode.updateTransform on a three-node chain

`updateTransform()` (src/unnamed/part_001): no-op when the node is not
transform-dirty; otherwise `worldTransform.copy(this.transform)`, then —
only if a parent exists — `worldTransform.multiply(this.parent.worldTransform)`
(the parent's *cached* world transform, read as-is, without updating the
parent first), then every direct child is marked transform-dirty, the own
flag is cleared and `isBoundsDirty` is set.  The functions below are that
method specialised to the chain root → child → grandchild. -/

structure TNode where
  transform : Transform
  worldTransform : Transform
  isTransformDirty : Bool
  isBoundsDirty : Bool

structure Chain where
  root : TNode
  child : TNode
  grand : TNode

/-- `updateTransform()` called on the chain's root (no parent; its only
child in the chain is `child`). -/
def Chain.updateTransformRoot (s : Chain) : Chain :=
  if ¬ s.root.isTransformDirty then s
  else
    { s with
      root := { s.root with
        worldTransform := s.root.transform
        isTransformDirty := false
        isBoundsDirty := true }
      child := { s.child with isTransformDirty := true } }

/-- `updateTransform()` called on the middle node (parent: root; child in
the chain: grandchild). -/
def Chain.updateTransformChild (s : Chain) : Chain :=
  if ¬ s.child.isTransformDirty then s
  else
    { s with
      child := { s.child with
        worldTransform := s.child.transform.multiply s.root.worldTransform
        isTransformDirty := false
        isBoundsDirty := true }
      grand := { s.grand with isTransformDirty := true } }

/-- `updateTransform()` called on the grandchild (parent: child; no
children). -/
def Chain.updateTransformGrand (s : Chain) : Chain :=
  if ¬ s.grand.isTransformDirty then s
  else
    { s with
      grand := { s.grand with
        worldTransform := s.grand.transform.multiply s.child.worldTransform
        isTransformDirty := false
        isBoundsDirty := true } }

/-- The claim's starting state: every node's local transform is a
translation by (10, 0), world transforms still hold the constructor's
identity, and every node is transform-dirty. -/
def chain0 : Chain :=
  let n : TNode := ⟨Transform.identityT.translate 10 0, Transform.identityT, true, true⟩
  ⟨n, n, n⟩

/-! ## Scene (src/js/tools/PenTool.js, `export class Scene`)

The constructor sets `this.root = null`, `this.nodes = new Map()`,
`this.selectedNodes = new Set()`, `this.spatialIndex = new Map()`.
A JavaScript `Map` has no `query`, `insert` or `remove` method, so the
`spatialIndexQuery` field — the `query` method looked up on the stored
spatial-index object — is `none` for a constructed scene.
`removeNode(node)` clears `this.root` when `node === this.root` (and only
then) and runs `sceneObserver.onNodeRemoved`, which deletes the single
map entry keyed `node.id` and drops the node from the selection. -/

structure SNodeRec where
  ref : Nat
  id : String
  nodeType : String
  layer : Int
  tags : List String
  visible : Bool
deriving DecidableEq, Repr

/-- `Map.prototype.delete(k)`: removes the entry with key `k`. -/
def mapDelete (m : List (String × SNodeRec)) (k : String) : List (String × SNodeRec) :=
  m.filter (fun p => p.1 ≠ k)

/-- `Map.prototype.get(k)`. -/
def mapGet (m : List (String × SNodeRec)) (k : String) : Option SNodeRec :=
  (m.find? (fun p => decide (p.1 = k))).map (·.2)

structure QueryOptions where
  type : Option String
  layer : Option Int
  tag : Option String
  visible : Option Bool

/-- `nodeMatchesQuery(node, options)`: each option present must match the
node's field (`tags` via set membership). -/
def nodeMatchesQuery (n : SNodeRec) (o : QueryOptions) : Bool :=
  (match o.type with | some t => decide (n.nodeType = t) | none => true) &&
  (match o.layer with | some l => decide (n.layer = l) | none => true) &&
  (match o.tag with | some t => n.tags.contains t | none => true) &&
  (match o.visible with | some v => n.visible == v | none => true)

structure Scene where
  root : Option SNodeRec
  nodes : List (String × SNodeRec)
  selectedNodes : List SNodeRec
  spatialIndexQuery : Option (AABB → List SNodeRec)

/-- `new Scene()`. -/
def Scene.new : Scene := ⟨none, [], [], none⟩

/-- Keeps the first occurrence of each element: the order a JS `Set`
accumulates values in. -/
def firstDedup {α : Type} [DecidableEq α] : List α → List α
  | [] => []
  | x :: xs => x :: (firstDedup xs).filter (fun y => y ≠ x)

/-- `queryRegion(bounds, options)`: evaluates
`this.spatialIndex.query(bounds)` — a `TypeError` when the stored object
(the constructor's `Map`) has no `query` method — then filters the
candidates through `nodeMatchesQuery` into a result `Set`. -/
def Scene.queryRegion (s : Scene) (bounds : AABB) (options : QueryOptions) :
    Except String (List SNodeRec) :=
  match s.spatialIndexQuery with
  | none => .error "TypeError: this.spatialIndex.query is not a function"
  | some query =>
      .ok (firstDedup ((query bounds).filter (fun n => nodeMatchesQuery n options)))

/-- `removeNode(node)`. -/
def Scene.removeNode (s : Scene) (n : SNodeRec) : Scene :=
  { s with
    root := if s.root = some n then none else s.root
    nodes := mapDelete s.nodes n.id
    selectedNodes := s.selectedNodes.filter (fun c => c ≠ n) }

/-! ## LayerManager (src/js/core/Effects.js, `class LayerManager`)

`getSortedNodes()` sorts the layers by `zIndex` (JS `Array.sort` is
stable), drops invisible layers, and pairs each remaining layer with its
member nodes filtered to `properties.visible` and stably sorted by node
`zIndex`.  `getBatchedNodes()` walks that stream in order and files every
node into a `Map` keyed by `getBatchKey(node, layer)` — `Map` iteration
order is key-insertion order, and a node whose key already exists is
pushed onto that existing batch wherever it sits. -/

structure LayerB where
  id : String
  zIndex : Int
  visible : Bool
  opacity : ℚ
  blendMode : String
deriving DecidableEq, Repr

structure NodeL where
  ref : Nat
  nodeType : String
  fill : String
  stroke : String
  strokeWidth : Int
  effectTypes : List String
  zIndex : Int
  visible : Bool
  opacity : ℚ
deriving DecidableEq, Repr

/-- Insert `x` behind every element whose `zIndex` is ≤ its own; folded
from the left this is a stable ascending sort, the behaviour of the
stable JS `Array.prototype.sort((a, b) => a.zIndex - b.zIndex)`. -/
def insertByZ {α : Type} (z : α → Int) (x : α) : List α → List α
  | [] => [x]
  | y :: ys => if z x < z y then x :: y :: ys else y :: insertByZ z x ys

def sortByZ {α : Type} (z : α → Int) (l : List α) : List α :=
  l.foldl (fun acc x => insertByZ z x acc) []

/-- `getSortedNodes()` as a function of the layer map's values (in
insertion order) and the `nodesByLayer` map. -/
def getSortedNodes (layers : List LayerB) (nodesByLayer : List (String × List NodeL)) :
    List (LayerB × List NodeL) :=
  (sortByZ (fun l => l.zIndex) layers).filterMap (fun l =>
    if l.visible then
      some (l, sortByZ (fun n => n.zIndex)
        ((((nodesByLayer.find? (fun p => decide (p.1 = l.id))).map (fun p => p.2)).getD
          []).filter (fun n => n.visible)))
    else none)

/-- `getBatchKey(node, layer)`:
`[type, blendMode, fill, stroke, strokeWidth, effect types].join('|')`. -/
def getBatchKey (n : NodeL) (l : LayerB) : String :=
  n.nodeType ++ "|" ++ l.blendMode ++ "|" ++ n.fill ++ "|" ++ n.stroke ++ "|" ++
    toString n.strokeWidth ++ "|" ++ String.intercalate "," n.effectTypes

structure Material where
  blendMode : String
  opacity : ℚ
  fill : String
  stroke : String
  strokeWidth : Int
  effectTypes : List String
deriving DecidableEq, Repr

/-- `getMaterialProperties(node, layer)`. -/
def getMaterialProperties (n : NodeL) (l : LayerB) : Material :=
  ⟨l.blendMode, l.opacity * n.opacity, n.fill, n.stroke, n.strokeWidth, n.effectTypes⟩

structure Batch where
  layer : LayerB
  material : Material
  nodes : List NodeL
deriving DecidableEq, Repr

/-- One step of `getBatchedNodes`'s inner loop: look up the node's batch
key in the accumulated `Map`; push onto the existing batch if present,
otherwise append a fresh batch at the end. -/
def addToBatch (batches : List (String × Batch)) (l : LayerB) (n : NodeL) :
    List (String × Batch) :=
  let k := getBatchKey n l
  if batches.any (fun q => q.1 = k) then
    batches.map (fun q =>
      if q.1 = k then (q.1, { q.2 with nodes := q.2.nodes ++ [n] }) else q)
  else
    batches ++ [(k, ⟨l, getMaterialProperties n l, [n]⟩)]

/-- The `(layer, node)` pairs `getBatchedNodes` iterates, in order. -/
def batchStream (layers : List LayerB) (nodesByLayer : List (String × List NodeL)) :
    List (LayerB × NodeL) :=
  (getSortedNodes layers nodesByLayer).flatMap (fun p => p.2.map (fun n => (p.1, n)))

/-- `getBatchedNodes()`: `Array.from(batches.values())`. -/
def getBatchedNodes (layers : List LayerB) (nodesByLayer : List (String × List NodeL)) :
    List Batch :=
  ((batchStream layers nodesByLayer).foldl
    (fun batches p => addToBatch batches p.1 p.2) []).map (fun q => q.2)

def streamKey (p : LayerB × NodeL) : String := getBatchKey p.2 p.1

/-- The key-indexed view of `addToBatch` with batches projected to their
node lists. -/
def gstep (g : List (String × List NodeL)) (p : LayerB × NodeL) :
    List (String × List NodeL) :=
  let k := streamKey p
  if g.any (fun q => q.1 = k) then
    g.map (fun q => if q.1 = k then (q.1, q.2 ++ [p.2]) else q)
  else g ++ [(k, [p.2])]

/-- Group-by-key specification: one entry per distinct batch key in first
occurrence order, holding all stream nodes with that key in stream
order. -/
def gspec (t : List (LayerB × NodeL)) : List (String × List NodeL) :=
  (firstDedup (t.map streamKey)).map
    (fun k => (k, (t.filter (fun q => decide (streamKey q = k))).map (fun q => q.2)))

/-! ## QuadTree (src/js/core/QuadTree.js)

A node holds `bounds`, an `objects` list, and either no children or the
four quadrant children created by `split()` (top-right, top-left,
bottom-left, bottom-right, in the source's index order 0–3).  The
`objectsMap` used by `remove` is omitted: no claim depends on it.
The AABB class has no `minX`/`maxX`/`minY`/`maxY` getters; the reads
`bounds.minX` etc. are modelled as the intended box edges. -/

structure Obj where
  ref : Nat
  bounds : AABB
deriving DecidableEq, Repr

inductive QTree where
  | leaf (bounds : AABB) (objects : List Obj)
  | split (bounds : AABB) (objects : List Obj) (c0 c1 c2 c3 : QTree)
deriving DecidableEq, Repr

/-- `getIndices(object)`: midpoints from this node's bounds, then the four
strict comparisons exactly as written —
`startIsNorth = object.bounds.maxY < horizontalMidpoint`,
`startIsWest = object.bounds.maxX < verticalMidpoint`,
`endIsEast = object.bounds.minX > verticalMidpoint`,
`endIsSouth = object.bounds.minY > horizontalMidpoint` — and one index per
quadrant condition: 0 for north∧east, 1 for west∧north, 2 for west∧south,
3 for east∧south. -/
def getIndices (nodeBounds objBounds : AABB) : List Nat :=
  let verticalMidpoint := nodeBounds.minX + nodeBounds.width / 2
  let horizontalMidpoint := nodeBounds.minY + nodeBounds.height / 2
  let startIsNorth := objBounds.maxY < horizontalMidpoint
  let startIsWest := objBounds.maxX < verticalMidpoint
  let endIsEast := objBounds.minX > verticalMidpoint
  let endIsSouth := objBounds.minY > horizontalMidpoint
  (if startIsNorth ∧ endIsEast then [0] else []) ++
  (if startIsWest ∧ startIsNorth then [1] else []) ++
  (if startIsWest ∧ endIsSouth then [2] else []) ++
  (if endIsEast ∧ endIsSouth then [3] else [])

/-- `split()`: the four child bounds exactly as constructed in the source
— note the third and fourth `AABB` constructor arguments are width and
height, yet the source passes coordinates
(`new AABB(x + subWidth, y, x + subWidth * 2, y + subHeight)` etc.). -/
def splitBounds (b : AABB) : AABB × AABB × AABB × AABB :=
  let subWidth := b.width / 2
  let subHeight := b.height / 2
  let x := b.minX
  let y := b.minY
  (⟨x + subWidth, y, x + subWidth * 2, y + subHeight⟩,
   ⟨x, y, x + subWidth, y + subHeight⟩,
   ⟨x, y + subHeight, x + subWidth, y + subHeight * 2⟩,
   ⟨x + subWidth, y + subHeight, x + subWidth * 2, y + subHeight * 2⟩)

/-- `insert(object)` with explicit recursion fuel (the JS recursion is
depth-bounded because `split` requires `level < maxLevels`).  On a node
with children: insert into the children whose index `getIndices` returns
(and into no other).  On a leaf: push the object; when the count exceeds
`maxObjects` and `level < maxLevels`, split and re-insert every held
object into the children via `getIndices`, leaving this node's own list
empty. -/
def insertAux (maxObjects maxLevels : Nat) :
    Nat → Nat → QTree → Obj → QTree
  | 0, _, t, _ => t
  | fuel + 1, level, QTree.split b objs c0 c1 c2 c3, o =>
    let idxs := getIndices b o.bounds
    QTree.split b objs
      (if 0 ∈ idxs then insertAux maxObjects maxLevels fuel (level + 1) c0 o else c0)
      (if 1 ∈ idxs then insertAux maxObjects maxLevels fuel (level + 1) c1 o else c1)
      (if 2 ∈ idxs then insertAux maxObjects maxLevels fuel (level + 1) c2 o else c2)
      (if 3 ∈ idxs then insertAux maxObjects maxLevels fuel (level + 1) c3 o else c3)
  | fuel + 1, level, QTree.leaf b objs, o =>
    let objsNew := objs ++ [o]
    if objsNew.length > maxObjects ∧ level < maxLevels then
      let q := splitBounds b
      let base := QTree.split b [] (QTree.leaf q.1 []) (QTree.leaf q.2.1 [])
        (QTree.leaf q.2.2.1 []) (QTree.leaf q.2.2.2 [])
      objsNew.foldl (fun t ob => insertAux maxObjects maxLevels fuel level t ob) base
    else QTree.leaf b objsNew

/-- `insert(object)` on the root (level 0), with ample fuel: the source's
recursion never exceeds one descent per level plus one split per level,
and levels stop at `maxLevels`. -/
def QTree.insert (maxObjects maxLevels : Nat) (t : QTree) (o : Obj) : QTree :=
  insertAux maxObjects maxLevels (2 * maxLevels + 2) 0 t o

/-- `retrieve(bounds, result)`: on a node with children, recurse only into
the children listed by `getIndices({bounds})`; then scan this node's own
objects with `intersectsAABB`.  Children are visited in index order, as
the source iterates the returned indices array. -/
def retrieveAux : QTree → AABB → List Obj
  | QTree.leaf _ objs, bounds =>
    objs.filter (fun o => bounds.intersectsAABB o.bounds)
  | QTree.split b objs c0 c1 c2 c3, bounds =>
    let idxs := getIndices b bounds
    ((if 0 ∈ idxs then retrieveAux c0 bounds else []) ++
     (if 1 ∈ idxs then retrieveAux c1 bounds else []) ++
     (if 2 ∈ idxs then retrieveAux c2 bounds else []) ++
     (if 3 ∈ idxs then retrieveAux c3 bounds else [])) ++
    objs.filter (fun o => bounds.intersectsAABB o.bounds)

/-- `retrieve` with the result `Set` modelled as first-occurrence
deduplication. -/
def QTree.retrieve (t : QTree) (bounds : AABB) : List Obj :=
  firstDedup (retrieveAux t bounds)

/-- The geometric quadrant regions of a node's bounds under exact
bisection: 0 top-right, 1 top-left, 2 bottom-left, 3 bottom-right. -/
def quadrantRegion (b : AABB) : Nat → AABB
  | 0 => ⟨b.x + b.width / 2, b.y, b.width / 2, b.height / 2⟩
  | 1 => ⟨b.x, b.y, b.width / 2, b.height / 2⟩
  | 2 => ⟨b.x, b.y + b.height / 2, b.width / 2, b.height / 2⟩
  | _ => ⟨b.x + b.width / 2, b.y + b.height / 2, b.width / 2, b.height / 2⟩

/-! ## Concrete instances used by the claim theorems and witnesses -/

/-- The quadtree root bounds and the objects of the retrieval
counterexample: a quadtree over (0,0,100,100) with `maxObjects = 1`,
`maxLevels = 5`; `objA` sits in the top-left quadrant, `objB` in the
top-right, `objC` straddles both midlines. -/
def qtRoot : AABB := ⟨0, 0, 100, 100⟩

def objA : Obj := ⟨0, ⟨10, 10, 5, 5⟩⟩

def objB : Obj := ⟨1, ⟨60, 10, 5, 5⟩⟩

def objC : Obj := ⟨2, ⟨40, 40, 20, 20⟩⟩

/-- The tree obtained by inserting `objA` then `objB`: the second insert
overflows `maxObjects = 1`, splits the root (with the source's child
bounds) and redistributes `objA` to the top-left child and `objB` to the
top-right child. -/
def t2 : QTree :=
  QTree.split qtRoot []
    (QTree.leaf ⟨50, 0, 100, 50⟩ [objB])
    (QTree.leaf ⟨0, 0, 50, 50⟩ [objA])
    (QTree.leaf ⟨0, 50, 50, 100⟩ [])
    (QTree.leaf ⟨50, 50, 100, 100⟩ [])



/-- A concrete scene node: id "node-7", translated by (3,4), one shadow
effect, one child. -/
def nodeA : SceneNode :=
  SceneNode.mk "node-7" "rect" ⟨true, false, 1, "normal"⟩
    (Transform.identityT.translate 3 4) Transform.identityT false
    ["shadow"] [SceneNode.new "node-8"]

/-- A two-node scene for the C9 witness: `wNode` is the root and `wChild`
is registered alongside it. -/
def wNode : SNodeRec := ⟨0, "a", "shape", 0, [], true⟩

def wChild : SNodeRec := ⟨1, "b", "shape", 0, [], true⟩

def wScene : Scene := ⟨some wNode, [("a", wNode), ("b", wChild)], [], none⟩

/-- A single visible layer and three visible shape nodes on it; the first
and third share a fill (hence a batch key), the middle one differs. -/
def layerD : LayerB := ⟨"default", 0, true, 1, "normal"⟩

def nB1 : NodeL := ⟨1, "shape", "red", "none", 1, [], 0, true, 1⟩

def nB2 : NodeL := ⟨2, "shape", "blue", "none", 1, [], 0, true, 1⟩

def nB3 : NodeL := ⟨3, "shape", "red", "none", 1, [], 0, true, 1⟩

end DesignTool

namespace DesignTool

/-! ## Map helper lemmas -/

theorem mapDelete_cons (p : String × SNodeRec) (ps : List (String × SNodeRec))
    (k : String) :
    mapDelete (p :: ps) k = if p.1 = k then mapDelete ps k else p :: mapDelete ps k := by
  by_cases h : p.1 = k <;> simp [mapDelete, h]

theorem mapGet_cons (p : String × SNodeRec) (ps : List (String × SNodeRec))
    (k : String) :
    mapGet (p :: ps) k = if p.1 = k then some p.2 else mapGet ps k := by
  by_cases h : p.1 = k <;> simp [mapGet, List.find?_cons, h]

theorem mapGet_mapDelete_self (m : List (String × SNodeRec)) (k : String) :
    mapGet (mapDelete m k) k = none := by
  induction m with
  | nil => rfl
  | cons p ps ih =>
    rw [mapDelete_cons]
    by_cases h : p.1 = k
    · rw [if_pos h]; exact ih
    · rw [if_neg h, mapGet_cons, if_neg h]; exact ih

theorem mapGet_mapDelete_other (m : List (String × SNodeRec)) (k k' : String)
    (h : k' ≠ k) : mapGet (mapDelete m k) k' = mapGet m k' := by
  induction m with
  | nil => rfl
  | cons p ps ih =>
    rw [mapDelete_cons]
    by_cases hp : p.1 = k
    · rw [if_pos hp, mapGet_cons, if_neg (by rw [hp]; exact fun he => h he.symm)]
      exact ih
    · rw [if_neg hp, mapGet_cons, mapGet_cons]
      by_cases hp' : p.1 = k'
      · rw [if_pos hp', if_pos hp']
      · rw [if_neg hp', if_neg hp']; exact ih

/-! ## Claim theorems: Transform and AABB -/

/-- C10: applying a transform with non-zero determinant and then its
inverse returns every point unchanged (exact arithmetic). -/
theorem invert_transformPoint_roundTrip (t : Transform) (p : Point)
    (h : t.det ≠ 0) :
    t.invert.transformPoint (t.transformPoint p) = p := by
  unfold Transform.invert
  rw [if_neg h]
  obtain ⟨px, py⟩ := p
  simp only [Transform.transformPoint, Point.mk.injEq]
  constructor <;> (field_simp; simp only [Transform.det]; ring)

/-- C10 witness: a concrete non-singular transform (scale by 2, translate
by (5, 7)) round-trips the point (1, 1). -/
theorem invert_transformPoint_roundTrip_witness :
    Transform.det ⟨2, 0, 0, 2, 5, 7⟩ ≠ 0 ∧
    Transform.transformPoint (Transform.invert ⟨2, 0, 0, 2, 5, 7⟩)
      (Transform.transformPoint ⟨2, 0, 0, 2, 5, 7⟩ ⟨1, 1⟩) = (⟨1, 1⟩ : Point) :=
  ⟨by norm_num [Transform.det],
    invert_transformPoint_roundTrip ⟨2, 0, 0, 2, 5, 7⟩ ⟨1, 1⟩ (by norm_num [Transform.det])⟩

/-- C6 counterexample: the boxes (0,0,10,10) and (10,0,10,10) touch
exactly along an edge (the first box's right edge x-coordinate 10 equals
the second's left edge) with identical y-ranges, yet `intersectsAABB`
returns `false` — the claim says touching edges count as intersecting. -/
theorem intersectsAABB_touching_edges_is_false :
    AABB.maxX ⟨0, 0, 10, 10⟩ = AABB.minX ⟨10, 0, 10, 10⟩ ∧
    AABB.intersectsAABB ⟨0, 0, 10, 10⟩ ⟨10, 0, 10, 10⟩ = false := by
  constructor
  · norm_num [AABB.maxX, AABB.minX]
  · have hx : ¬ ((0 : ℚ) + 10 > 10) := by norm_num
    simp [AABB.intersectsAABB, hx]

/-- C6 (amended): the per-edge comparison in `intersectsAABB` is strict,
so two AABBs that touch exactly along an edge (A's right edge x-coordinate
equal to B's left edge x-coordinate) are never reported as intersecting,
whatever their y-ranges. -/
theorem intersectsAABB_touching_edges_never_intersect (s t : AABB)
    (h : s.x + s.width = t.x) :
    s.intersectsAABB t = false := by
  have hx : ¬ (s.x + s.width > t.x) := by rw [h]; exact lt_irrefl _
  simp [AABB.intersectsAABB, hx]

/-- C6 amended witness: the touching pair (0,0,10,10), (10,0,10,10). -/
theorem intersectsAABB_touching_edges_never_intersect_witness :
    (0 : ℚ) + 10 = 10 ∧
    AABB.intersectsAABB ⟨0, 0, 10, 10⟩ ⟨10, 0, 10, 10⟩ = false :=
  ⟨by norm_num,
    intersectsAABB_touching_edges_never_intersect ⟨0, 0, 10, 10⟩ ⟨10, 0, 10, 10⟩
      (by norm_num)⟩

/-- C7: in auto mode the backend choice is webgl iff
`complexity > 1000 ∧ hardware available ∧ fps > 30`; otherwise hybrid iff
`complexity > 500 ∧ hardware available`; otherwise canvas (software); in
particular complexity 1200 / fps 45 / hardware available selects webgl and
complexity 1200 / fps 20 does not. -/
theorem getOptimalRenderer_spec (c f : ℚ) (w : Bool) :
    (getOptimalRenderer c w f = Strategy.webgl ↔ (c > 1000 ∧ w = true ∧ f > 30)) ∧
    (getOptimalRenderer c w f = Strategy.hybrid ↔
      (¬(c > 1000 ∧ w = true ∧ f > 30) ∧ c > 500 ∧ w = true)) ∧
    (getOptimalRenderer c w f = Strategy.canvas ↔
      (¬(c > 1000 ∧ w = true ∧ f > 30) ∧ ¬(c > 500 ∧ w = true))) ∧
    getOptimalRenderer 1200 true 45 = Strategy.webgl ∧
    getOptimalRenderer 1200 true 20 ≠ Strategy.webgl := by
  unfold getOptimalRenderer
  refine ⟨?_, ?_, ?_, ?_, ?_⟩
  · split_ifs with h1 h2 <;> simp_all
  · split_ifs with h1 h2 <;> simp_all
  · split_ifs with h1 h2 <;> simp_all
  · norm_num
  · norm_num
    decide

/-! ## Claim theorems: SceneNode clone and updateTransform -/

/-- C8 counterexample: `clone` executes `new SceneNode(this.id)`, so the
clone of the concrete node `nodeA` carries the *same* id — the claim that
a clone's id differs from the original's fails. -/
theorem clone_preserves_id_counterexample :
    (SceneNode.clone true nodeA).id = nodeA.id := rfl

/-- C8 (amended): a node's id is assigned at construction (a fresh UUID
when none is passed), but `clone(deep)` passes the original's id to the
new node's constructor, so every clone shares its original's id — node
ids are not unique across live nodes once `clone` is used. -/
theorem clone_preserves_id (deep : Bool) (n : SceneNode) :
    (SceneNode.clone deep n).id = n.id := by
  cases n
  rfl

/-- C4 counterexample: in the root→child→grandchild chain where every
local transform translates by (10,0) and every node starts
transform-dirty, calling `updateTransform` on the grandchild alone
composes its local transform with the parent's *stale* cached world
transform (still the constructor's identity), so the grandchild's world X
translation is 10, not the claimed 30. -/
theorem updateTransform_grandchild_only_gives_10 :
    (Chain.updateTransformGrand chain0).grand.worldTransform.e = 10 ∧
    (10 : ℚ) ≠ 30 := by
  constructor
  · norm_num [chain0, Chain.updateTransformGrand, Transform.multiply,
      Transform.translate, Transform.identityT]
  · norm_num

/-- C4 (amended): `updateTransform` reads the parent's cached world
transform without refreshing it, so the grandchild's world X translation
reaches 30 only after `updateTransform` runs on the root, then the child,
then the grandchild (top-down); from the all-dirty initial state a
grandchild-only call yields 10. -/
theorem updateTransform_topDown_gives_30 :
    (Chain.updateTransformGrand (Chain.updateTransformChild
      (Chain.updateTransformRoot chain0))).grand.worldTransform.e = 30 := by
  norm_num [chain0, Chain.updateTransformRoot, Chain.updateTransformChild,
    Chain.updateTransformGrand, Transform.multiply, Transform.translate,
    Transform.identityT]

/-! ## Claim theorems: Scene -/

/-- C1: `queryRegion` on a constructed scene invokes
`this.spatialIndex.query(bounds)`, but the constructor stored a plain
`Map`, which has no `query` method — every call throws a `TypeError`
instead of returning the filtered candidate set, for every bounds
rectangle and every option set. -/
theorem queryRegion_always_throws (bounds : AABB) (options : QueryOptions) :
    Scene.new.queryRegion bounds options =
      Except.error "TypeError: this.spatialIndex.query is not a function" := rfl

/-- The scene operations never replace the spatial-index object, so the
missing `query` method persists beyond the constructor. -/
theorem removeNode_spatialIndexQuery (s : Scene) (n : SNodeRec) :
    (s.removeNode n).spatialIndexQuery = s.spatialIndexQuery := rfl

/-- C9: `removeNode(n)` deletes exactly the id-map entry keyed `n.id`,
clears the root reference iff `n` was the root, and leaves every other
registered node — in particular every registered child of `n` — with its
id-map entry intact. -/
theorem removeNode_removes_exactly_n (s : Scene) (n c : SNodeRec)
    (hreg : mapGet s.nodes n.id = some n) :
    mapGet (s.removeNode n).nodes n.id = none ∧
    (s.removeNode n).root = (if s.root = some n then none else s.root) ∧
    (mapGet s.nodes c.id = some c → c ≠ n →
      mapGet (s.removeNode n).nodes c.id = some c) := by
  refine ⟨mapGet_mapDelete_self _ _, rfl, fun hc hne => ?_⟩
  by_cases hid : c.id = n.id
  · exfalso
    rw [hid, hreg] at hc
    exact hne (Option.some.inj hc).symm
  · rw [show (s.removeNode n).nodes = mapDelete s.nodes n.id from rfl,
      mapGet_mapDelete_other _ _ _ hid]
    exact hc

/-- C9 witness: removing the root of the concrete two-node scene erases
only its own map entry and leaves the other node registered. -/
theorem removeNode_removes_exactly_n_witness :
    mapGet (wScene.removeNode wNode).nodes wNode.id = none ∧
    (wScene.removeNode wNode).root =
      (if wScene.root = some wNode then none else wScene.root) ∧
    (mapGet wScene.nodes wChild.id = some wChild → wChild ≠ wNode →
      mapGet (wScene.removeNode wNode).nodes wChild.id = some wChild) :=
  removeNode_removes_exactly_n wScene wNode wChild (by rfl)

/-! ## LayerManager lemmas -/

theorem mem_firstDedup {α : Type} [DecidableEq α] (l : List α) (x : α) :
    x ∈ firstDedup l ↔ x ∈ l := by
  induction l with
  | nil => simp [firstDedup]
  | cons y ys ih =>
    simp only [firstDedup, List.mem_cons, List.mem_filter, ih]
    by_cases hxy : x = y
    · simp [hxy]
    · simp [hxy]

theorem firstDedup_append_singleton {α : Type} [DecidableEq α] (l : List α) (x : α) :
    firstDedup (l ++ [x]) =
      if x ∈ l then firstDedup l else firstDedup l ++ [x] := by
  induction l with
  | nil => simp [firstDedup]
  | cons y ys ih =>
    simp only [List.cons_append, firstDedup, List.append_eq]
    rw [ih]
    by_cases hmem : x ∈ ys
    · rw [if_pos hmem, if_pos (List.mem_cons_of_mem y hmem)]
    · by_cases hxy : x = y
      · subst hxy
        rw [if_neg hmem, if_pos (List.mem_cons_self x ys), List.filter_append]
        simp [firstDedup]
      · have hx : x ∉ y :: ys := by simp [hxy, hmem]
        rw [if_neg hmem, if_neg hx, List.filter_append]
        simp [firstDedup, hxy]

theorem any_key_map_batch (batches : List (String × Batch)) (k : String) :
    ((batches.map (fun q => (q.1, q.2.nodes))).any fun q => decide (q.1 = k)) =
      (batches.any fun q => decide (q.1 = k)) := by
  induction batches with
  | nil => rfl
  | cons b bs ih => simp only [List.map_cons, List.any_cons, ih]

theorem any_key_map_keys (keys : List String) (f : String → List NodeL) (k : String) :
    ((keys.map (fun x => (x, f x))).any fun q => decide (q.1 = k)) =
      (keys.any fun x => decide (x = k)) := by
  induction keys with
  | nil => rfl
  | cons y ys ih => simp only [List.map_cons, List.any_cons, ih]

theorem any_eq_mem (keys : List String) (k : String) :
    ((keys.any fun x => decide (x = k)) = true) ↔ k ∈ keys := by
  simp only [List.any_eq_true, decide_eq_true_eq]
  exact ⟨fun ⟨x, hx, he⟩ => he ▸ hx, fun h => ⟨k, h, rfl⟩⟩

theorem pi_addToBatch (batches : List (String × Batch)) (l : LayerB) (n : NodeL) :
    (addToBatch batches l n).map (fun q => (q.1, q.2.nodes)) =
      gstep (batches.map (fun q => (q.1, q.2.nodes))) (l, n) := by
  unfold addToBatch gstep
  simp only [streamKey]
  by_cases h : batches.any (fun q => decide (q.1 = getBatchKey n l))
  · rw [if_pos h, if_pos (by rw [any_key_map_batch]; exact h)]
    rw [List.map_map, List.map_map]
    refine List.map_congr_left fun q hq => ?_
    by_cases hk : q.1 = getBatchKey n l <;> simp [Function.comp, hk]
  · rw [if_neg h, if_neg (by rw [any_key_map_batch]; exact h)]
    simp

theorem gstep_gspec (pre : List (LayerB × NodeL)) (p : LayerB × NodeL) :
    gstep (gspec pre) p = gspec (pre ++ [p]) := by
  unfold gstep gspec
  by_cases hk : streamKey p ∈ pre.map streamKey
  · have hany : ((firstDedup (pre.map streamKey)).map
        (fun k => (k, (pre.filter (fun q => decide (streamKey q = k))).map
          (fun q => q.2)))).any (fun q => decide (q.1 = streamKey p)) = true := by
      rw [any_key_map_keys, any_eq_mem]
      exact (mem_firstDedup _ _).mpr hk
    rw [if_pos hany]
    have hkeys : firstDedup ((pre ++ [p]).map streamKey) =
        firstDedup (pre.map streamKey) := by
      rw [List.map_append, List.map_singleton, firstDedup_append_singleton, if_pos hk]
    rw [hkeys, List.map_map]
    refine List.map_congr_left fun k hmem => ?_
    simp only [Function.comp, List.filter_append]
    by_cases hkk : k = streamKey p
    · subst hkk
      simp [List.filter_cons, List.map_append]
    · have hpk : ¬ streamKey p = k := fun he => hkk he.symm
      simp [List.filter_cons, hkk, hpk]
  · have hany : ¬ ((firstDedup (pre.map streamKey)).map
        (fun k => (k, (pre.filter (fun q => decide (streamKey q = k))).map
          (fun q => q.2)))).any (fun q => decide (q.1 = streamKey p)) = true := by
      rw [any_key_map_keys, any_eq_mem]
      intro hmem
      exact hk ((mem_firstDedup _ _).mp hmem)
    rw [if_neg hany]
    have hkeys : firstDedup ((pre ++ [p]).map streamKey) =
        firstDedup (pre.map streamKey) ++ [streamKey p] := by
      rw [List.map_append, List.map_singleton, firstDedup_append_singleton, if_neg hk]
    rw [hkeys, List.map_append, List.map_singleton]
    congr 1
    · refine List.map_congr_left fun k hmem => ?_
      have hkmem : k ∈ pre.map streamKey := (mem_firstDedup _ _).mp hmem
      have hpk : ¬ streamKey p = k := fun he => hk (he ▸ hkmem)
      simp [List.filter_append, List.filter_cons, hpk]
    · have hnil : pre.filter (fun q => decide (streamKey q = streamKey p)) = [] := by
        rw [List.filter_eq_nil_iff]
        intro q hq
        simp only [decide_eq_true_eq]
        intro he
        exact hk (he ▸ List.mem_map_of_mem streamKey hq)
      simp [List.filter_append, List.filter_cons, hnil]

theorem pi_foldl (s : List (LayerB × NodeL)) (batches : List (String × Batch)) :
    (s.foldl (fun b p => addToBatch b p.1 p.2) batches).map (fun q => (q.1, q.2.nodes)) =
      s.foldl gstep (batches.map (fun q => (q.1, q.2.nodes))) := by
  induction s generalizing batches with
  | nil => rfl
  | cons p ps ih => rw [List.foldl_cons, List.foldl_cons, ih, pi_addToBatch]

theorem foldl_gstep_gspec (s pre : List (LayerB × NodeL)) :
    s.foldl gstep (gspec pre) = gspec (pre ++ s) := by
  induction s generalizing pre with
  | nil => rw [List.append_nil, List.foldl_nil]
  | cons p ps ih =>
    rw [List.foldl_cons, gstep_gspec, ih]
    congr 1
    simp

/-! ## Claim theorems: LayerManager batching -/

/-- C3 counterexample: the sorted stream is n1, n2, n3 and n2's batch key
differs from n1's, yet `getBatchedNodes` files n3 into n1's batch:
the concatenation of the returned batches is n1, n3, n2 — node n3 has
moved ahead of the intervening different-key node n2, so batching does
not preserve the paint order. -/
theorem getBatchedNodes_reorders_nonadjacent :
    (getSortedNodes [layerD] [("default", [nB1, nB2, nB3])]).flatMap
      (fun q => q.2) = [nB1, nB2, nB3] ∧
    (getBatchedNodes [layerD] [("default", [nB1, nB2, nB3])]).flatMap
      Batch.nodes = [nB1, nB3, nB2] ∧
    getBatchKey nB2 layerD ≠ getBatchKey nB1 layerD := by
  refine ⟨by rfl, by rfl, by decide⟩

/-- C3 (amended): `getBatchedNodes` merges *all* stream nodes sharing a
batch key into a single batch, not just adjacent runs: the batches are in
first-occurrence order of their keys, and each batch holds every node of
the sorted stream with that key, in stream order.  Concatenating the
batches therefore preserves the layer/z paint order only when equal-key
nodes are already adjacent; a non-adjacent same-key node is pulled ahead
of intervening nodes with different keys. -/
theorem getBatchedNodes_groupsByKey (layers : List LayerB)
    (nodesByLayer : List (String × List NodeL)) :
    (getBatchedNodes layers nodesByLayer).map Batch.nodes =
      (firstDedup ((batchStream layers nodesByLayer).map streamKey)).map
        (fun k => ((batchStream layers nodesByLayer).filter
          (fun q => decide (streamKey q = k))).map (fun q => q.2)) := by
  have h1 := pi_foldl (batchStream layers nodesByLayer) []
  simp only [List.map_nil] at h1
  have h2 := foldl_gstep_gspec (batchStream layers nodesByLayer) []
  have h0 : gspec ([] : List (LayerB × NodeL)) = [] := rfl
  rw [h0, List.nil_append] at h2
  unfold getBatchedNodes
  rw [List.map_map]
  have hA : ((List.foldl (fun batches p => addToBatch batches p.1 p.2) []
      (batchStream layers nodesByLayer)).map (Batch.nodes ∘ fun q => q.2)) =
      ((List.foldl (fun batches p => addToBatch batches p.1 p.2) []
        (batchStream layers nodesByLayer)).map (fun q => (q.1, q.2.nodes))).map
          (fun q => q.2) := by
    rw [List.map_map]
    rfl
  rw [hA, h1, h2, gspec, List.map_map]
  rfl

/-! ## QuadTree evaluation lemmas -/

theorem insertAux_zero (m l level : Nat) (t : QTree) (o : Obj) :
    insertAux m l 0 level t o = t := rfl

theorem insertAux_succ_leaf (m l fuel level : Nat) (b : AABB) (objs : List Obj)
    (o : Obj) :
    insertAux m l (fuel + 1) level (QTree.leaf b objs) o =
      (if (objs ++ [o]).length > m ∧ level < l then
        (objs ++ [o]).foldl (fun t ob => insertAux m l fuel level t ob)
          (QTree.split b [] (QTree.leaf (splitBounds b).1 [])
            (QTree.leaf (splitBounds b).2.1 [])
            (QTree.leaf (splitBounds b).2.2.1 [])
            (QTree.leaf (splitBounds b).2.2.2 []))
      else QTree.leaf b (objs ++ [o])) := rfl

theorem insertAux_succ_split (m l fuel level : Nat) (b : AABB) (objs : List Obj)
    (c0 c1 c2 c3 : QTree) (o : Obj) :
    insertAux m l (fuel + 1) level (QTree.split b objs c0 c1 c2 c3) o =
      QTree.split b objs
        (if 0 ∈ getIndices b o.bounds then insertAux m l fuel (level + 1) c0 o else c0)
        (if 1 ∈ getIndices b o.bounds then insertAux m l fuel (level + 1) c1 o else c1)
        (if 2 ∈ getIndices b o.bounds then insertAux m l fuel (level + 1) c2 o else c2)
        (if 3 ∈ getIndices b o.bounds then insertAux m l fuel (level + 1) c3 o else c3) :=
  rfl

theorem retrieveAux_leaf (b : AABB) (objs : List Obj) (bounds : AABB) :
    retrieveAux (QTree.leaf b objs) bounds =
      objs.filter (fun o => bounds.intersectsAABB o.bounds) := rfl

theorem retrieveAux_split (b : AABB) (objs : List Obj) (c0 c1 c2 c3 : QTree)
    (bounds : AABB) :
    retrieveAux (QTree.split b objs c0 c1 c2 c3) bounds =
      ((if 0 ∈ getIndices b bounds then retrieveAux c0 bounds else []) ++
       (if 1 ∈ getIndices b bounds then retrieveAux c1 bounds else []) ++
       (if 2 ∈ getIndices b bounds then retrieveAux c2 bounds else []) ++
       (if 3 ∈ getIndices b bounds then retrieveAux c3 bounds else [])) ++
      objs.filter (fun o => bounds.intersectsAABB o.bounds) := rfl

theorem getIndices_qtRoot_objA : getIndices qtRoot objA.bounds = [1] := by
  norm_num [getIndices, AABB.minX, AABB.maxX, AABB.minY, AABB.maxY, qtRoot, objA]

theorem getIndices_qtRoot_objB : getIndices qtRoot objB.bounds = [0] := by
  norm_num [getIndices, AABB.minX, AABB.maxX, AABB.minY, AABB.maxY, qtRoot, objB]

theorem getIndices_qtRoot_objC : getIndices qtRoot objC.bounds = [] := by
  norm_num [getIndices, AABB.minX, AABB.maxX, AABB.minY, AABB.maxY, qtRoot, objC]

theorem getIndices_qtRoot_query : getIndices qtRoot qtRoot = [] := by
  norm_num [getIndices, AABB.minX, AABB.maxX, AABB.minY, AABB.maxY, qtRoot]

theorem splitBounds_qtRoot :
    splitBounds qtRoot =
      (⟨50, 0, 100, 50⟩, ⟨0, 0, 50, 50⟩, ⟨0, 50, 50, 100⟩, ⟨50, 50, 100, 100⟩) := by
  norm_num [splitBounds, AABB.minX, AABB.minY, qtRoot]

theorem insert_objA_into_empty :
    QTree.insert 1 5 (QTree.leaf qtRoot []) objA = QTree.leaf qtRoot [objA] := rfl

theorem insert_objB_splits :
    QTree.insert 1 5 (QTree.leaf qtRoot [objA]) objB = t2 := by
  show insertAux 1 5 12 0 (QTree.leaf qtRoot [objA]) objB = t2
  simp [insertAux_succ_leaf, insertAux_succ_split, splitBounds_qtRoot,
    getIndices_qtRoot_objA, getIndices_qtRoot_objB, t2]

/-! ## Claim theorems: QuadTree -/

/-- C5: `getIndices` on the (0,0,100,100) node assigns the straddling
object (40,40,20,20) — whose bounds overlap all four quadrant regions —
to *no* quadrant (the `startIsNorth`/`startIsWest` tests compare the
object's max edges, and all comparisons are strict), and `insert` on the
already-split tree `t2` therefore places the object into no child at all:
the tree is returned unchanged and the object is lost. -/
theorem getIndices_drops_straddling_object :
    getIndices qtRoot objC.bounds = [] ∧
    ((List.range 4).filter
      (fun i => (quadrantRegion qtRoot i).intersectsAABB objC.bounds)) = [0, 1, 2, 3] ∧
    QTree.insert 1 5 t2 objC = t2 := by
  refine ⟨getIndices_qtRoot_objC, ?_, ?_⟩
  · norm_num [quadrantRegion, AABB.intersectsAABB, qtRoot, objC, List.range,
      List.range.loop, List.filter]
  · show insertAux 1 5 12 0 t2 objC = t2
    rw [t2, show (12 : Nat) = 11 + 1 from rfl, insertAux_succ_split,
      getIndices_qtRoot_objC]
    simp

/-- C2: inserting `objA` and `objB` into the empty (0,0,100,100) quadtree
with `maxObjects = 1`, `maxLevels = 5` splits the root, after which
`retrieve` over the full root bounds returns nothing at all — the query
straddles both midlines, `getIndices` yields no child to recurse into,
and the split root holds no direct objects — while the brute-force
intersection filter returns both inserted objects. -/
theorem retrieve_incomplete_counterexample :
    QTree.insert 1 5 (QTree.insert 1 5 (QTree.leaf qtRoot []) objA) objB = t2 ∧
    QTree.retrieve t2 qtRoot = [] ∧
    ([objA, objB].filter (fun o => AABB.intersectsAABB qtRoot o.bounds)) =
      [objA, objB] := by
  refine ⟨?_, ?_, ?_⟩
  · rw [insert_objA_into_empty, insert_objB_splits]
  · rw [QTree.retrieve, t2, retrieveAux_split, getIndices_qtRoot_query]
    norm_num [firstDedup]
  · norm_num [AABB.intersectsAABB, qtRoot, objA, objB, List.filter]

end DesignTool
